import Mathlib

/-!
Verification of the heatpump repository's two scripts, `capture.py` and
`send.py`, against their natural-language specification.

The scripts are control-flow glue around an external device-control
library (`broadlink`).  We embed them shallowly: bytes are `Fin 256`,
strings are `List Char`, and each loop is a function from a finite
script of device responses (or input lines) to the list of observable
events it performs, in order.  Python built-ins used by the scripts
(`bytearray.fromhex`, `str.rstrip`, `format(x, "02x")`) are modelled
from CPython's documented semantics, including `fromhex`'s skipping of
ASCII whitespace between byte pairs.
-/

namespace Heatpump

/-- ASCII whitespace on code points, the characters skipped by
CPython's `bytes.fromhex` (`Py_ISSPACE`): space (32), tab (9),
newline (10), vertical tab (11), form feed (12), carriage return
(13). -/
def isAsciiSpaceN (n : Nat) : Bool :=
  n = 32 || n = 9 || n = 10 || n = 11 || n = 12 || n = 13

/-- ASCII whitespace as a character predicate. -/
def isAsciiSpace (c : Char) : Bool :=
  isAsciiSpaceN c.toNat

/-- The characters stripped by Python's `str.rstrip()` with no
argument: all code points for which `str.isspace()` holds (ASCII
whitespace plus the Unicode whitespace code points). -/
def isPyStrSpace (c : Char) : Bool :=
  isAsciiSpace c
    || c.toNat = 28 || c.toNat = 29 || c.toNat = 30 || c.toNat = 31
    || c.toNat = 133 || c.toNat = 160 || c.toNat = 5760
    || (8192 ≤ c.toNat && c.toNat ≤ 8202)
    || c.toNat = 8232 || c.toNat = 8233 || c.toNat = 8239
    || c.toNat = 8287 || c.toNat = 12288

/-- Python `line.rstrip()` (send.py line 9): remove trailing
whitespace characters. -/
def pyRstrip (l : List Char) : List Char :=
  (l.reverse.dropWhile isPyStrSpace).reverse

/-- Value of one hexadecimal digit code point, as accepted by
CPython's `bytes.fromhex` (`_PyLong_DigitValue`): `0`-`9` (48-57),
`A`-`F` (65-70), `a`-`f` (97-102). -/
def hexValN (n : Nat) : Option (Fin 16) :=
  if h : 48 ≤ n ∧ n ≤ 57 then some ⟨n - 48, by omega⟩
  else if h : 65 ≤ n ∧ n ≤ 70 then some ⟨n - 55, by omega⟩
  else if h : 97 ≤ n ∧ n ≤ 102 then some ⟨n - 87, by omega⟩
  else none

/-- Value of one hexadecimal digit character. -/
def hexVal (c : Char) : Option (Fin 16) :=
  hexValN c.toNat

/-- Python `bytearray.fromhex` (send.py line 9), following CPython's
`_PyBytes_FromHex`: ASCII whitespace may appear before, between and
after byte pairs and is skipped; each byte is exactly two adjacent hex
digits (most-significant nibble first); anything else — including an
odd trailing digit or whitespace splitting a pair — raises
`ValueError`, modelled as `none`. -/
def fromhex : List Char → Option (List (Fin 256))
  | [] => some []
  | c :: cs =>
    if isAsciiSpace c then fromhex cs
    else
      match hexVal c, cs with
      | some t, d :: cs' =>
        match hexVal d, fromhex cs' with
        | some b, some r =>
          some (⟨16 * t.val + b.val, by
            have ht := t.isLt; have hb := b.isLt; omega⟩ :: r)
        | _, _ => none
      | _, _ => none

/-- Lowercase hexadecimal digit character for a nibble, as produced by
Python's `format(x, "02x")`. -/
def hexDigitChar (n : Fin 16) : Char :=
  if n.val < 10 then Char.ofNat (48 + n.val) else Char.ofNat (87 + n.val)

/-- Python `format(x, "02x")` for a byte value `x < 256` (capture.py
line 16): exactly two lowercase hex digits, most-significant nibble
first, zero-padded. -/
def format02x (b : Fin 256) : List Char :=
  [hexDigitChar ⟨b.val / 16, by have := b.isLt; omega⟩,
   hexDigitChar ⟨b.val % 16, by omega⟩]

/-- capture.py line 16:
`hexdata = ''.join(format(x, '02x') for x in bytearray(data))`. -/
def hexdata (data : List (Fin 256)) : List Char :=
  (data.map format02x).flatten

/-- Observable actions of either script, in program order. -/
inductive Event where
  | enter_learning : Event
  | check_data : Event
  | sleep_half : Event
  | out : List Char → Event
  | flush : Event
  | send_data : List (Fin 256) → Event
  deriving DecidableEq

/-- One response of the device to a `check_data` poll in capture.py:
the transient `StorageError` ("storage empty"), captured data, or any
other (non-transient) exception. -/
inductive PollResult where
  | storage_empty : PollResult
  | data : List (Fin 256) → PollResult
  | fatal : PollResult
  deriving DecidableEq

/-- capture.py lines 8-19: the loop body, driven by a finite script of
device poll responses.  Each iteration polls (`check_data`); on
`StorageError` it sleeps 0.5s and continues without re-arming; on data
it prints the hex rendering, flushes stdout and re-arms learning mode;
any other exception propagates and the process dies, consuming nothing
further. -/
def captureSteps : List PollResult → List Event
  | [] => []
  | PollResult.storage_empty :: rest =>
      Event.check_data :: Event.sleep_half :: captureSteps rest
  | PollResult.data b :: rest =>
      Event.check_data :: Event.out (hexdata b) :: Event.flush ::
        Event.enter_learning :: captureSteps rest
  | PollResult.fatal :: _ => [Event.check_data]

/-- Whether the capture run dies from an uncaught exception while
consuming the given script of poll responses. -/
def captureCrashes : List PollResult → Bool
  | [] => false
  | PollResult.fatal :: _ => true
  | _ :: rest => captureCrashes rest

/-- capture.py: `enter_learning` is called once before the loop
(line 8), then the loop runs. -/
def captureRun (script : List PollResult) : List Event :=
  Event.enter_learning :: captureSteps script

/-- How the send loop ends: normal end of input (exit code 0) or a
fatal `ValueError` from `bytearray.fromhex`. -/
inductive SendOutcome where
  | exit0 : SendOutcome
  | decode_error : SendOutcome
  deriving DecidableEq

/-- The confirmation line printed by send.py line 11. -/
def sentMsg : List Char := ['S', 'e', 'n', 't']

/-- send.py lines 8-11: for each input line, strip trailing
whitespace, decode as hex, send the bytes, print `Sent`.  A decode
failure raises an uncaught `ValueError`: nothing is sent for that line
and no later line is processed. -/
def sendEvents : List (List Char) → List Event
  | [] => []
  | line :: rest =>
    match fromhex (pyRstrip line) with
    | none => []
    | some data => Event.send_data data :: Event.out sentMsg :: sendEvents rest

/-- Exit status of the send loop on the given input lines. -/
def sendExit : List (List Char) → SendOutcome
  | [] => SendOutcome.exit0
  | line :: rest =>
    match fromhex (pyRstrip line) with
    | none => SendOutcome.decode_error
    | some _ => sendExit rest

/-- Lowercase hexadecimal digit: the character class `[0-9a-f]`. -/
def isLowerHexDigit (c : Char) : Bool :=
  (48 ≤ c.toNat && c.toNat ≤ 57) || (97 ≤ c.toNat && c.toNat ≤ 102)

/-- The spec's output-line format `^[0-9a-f]+$`: a non-empty string of
lowercase hex digits. -/
def matchesLowerHexPlus (l : List Char) : Bool :=
  !l.isEmpty && l.all isLowerHexDigit

/-- The spec's encoder format `^([0-9a-f]{2})*$`: an even-length
string of lowercase hex digits. -/
def matchesHexPairs (l : List Char) : Bool :=
  l.length % 2 = 0 && l.all isLowerHexDigit

/-- Whether every `out` event in a trace is immediately followed by a
`flush` event. -/
def flushAfterOut : List Event → Bool
  | [] => true
  | Event.out _ :: rest =>
    match rest with
    | Event.flush :: _ => flushAfterOut rest
    | _ => false
  | _ :: rest => flushAfterOut rest

/-- The shape accepted by `fromhex`: hex-digit pairs, with ASCII
whitespace allowed before, between and after pairs but never inside a
pair. -/
def pyHexShape : List Char → Bool
  | [] => true
  | c :: cs =>
    if isAsciiSpace c then pyHexShape cs
    else
      match cs with
      | [] => false
      | d :: cs' => (hexVal c).isSome && (hexVal d).isSome && pyHexShape cs'

/-- The lines printed by a trace, in order. -/
def outLines (es : List Event) : List (List Char) :=
  es.filterMap fun e =>
    match e with
    | Event.out s => some s
    | _ => none

/-- The codes the capture loop actually captures from a script of poll
responses: the payloads of `data` responses, cut off at the first
uncaught exception. -/
def capturedCodes : List PollResult → List (List (Fin 256))
  | [] => []
  | PollResult.storage_empty :: rest => capturedCodes rest
  | PollResult.data b :: rest => b :: capturedCodes rest
  | PollResult.fatal :: _ => []


end Heatpump

namespace Heatpump

set_option maxRecDepth 4000

theorem toNat_ofNat_valid (n : Nat) (h : n < 55296) : (Char.ofNat n).toNat = n := by
  have hv : n.isValidChar := Or.inl h
  simp [Char.ofNat, hv, Char.ofNatAux, Char.toNat, UInt32.ofNat', UInt32.toNat]

theorem isAsciiSpaceN_false_of_ge (n : Nat) (h : 48 ≤ n) : isAsciiSpaceN n = false := by
  simp only [isAsciiSpaceN, Bool.or_eq_false_iff, decide_eq_false_iff_not]
  omega

theorem hexVal_toUpper (c : Char) : hexVal (Char.toUpper c) = hexVal c := by
  unfold Char.toUpper hexVal
  by_cases hc : c.toNat ≥ 97 ∧ c.toNat ≤ 122
  · rw [if_pos hc, toNat_ofNat_valid _ (by omega)]
    unfold hexValN
    split_ifs <;> first | rfl | omega
  · rw [if_neg hc]

theorem isAsciiSpace_toUpper (c : Char) :
    isAsciiSpace (Char.toUpper c) = isAsciiSpace c := by
  unfold Char.toUpper isAsciiSpace
  by_cases hc : c.toNat ≥ 97 ∧ c.toNat ≤ 122
  · rw [if_pos hc, toNat_ofNat_valid _ (by omega),
      isAsciiSpaceN_false_of_ge _ (by omega), isAsciiSpaceN_false_of_ge _ (by omega)]
  · rw [if_neg hc]

theorem hexVal_toLower (c : Char) : hexVal (Char.toLower c) = hexVal c := by
  unfold Char.toLower hexVal
  by_cases hc : c.toNat ≥ 65 ∧ c.toNat ≤ 90
  · rw [if_pos hc, toNat_ofNat_valid _ (by omega)]
    unfold hexValN
    split_ifs <;> first | rfl | omega
  · rw [if_neg hc]

theorem isAsciiSpace_toLower (c : Char) :
    isAsciiSpace (Char.toLower c) = isAsciiSpace c := by
  unfold Char.toLower isAsciiSpace
  by_cases hc : c.toNat ≥ 65 ∧ c.toNat ≤ 90
  · rw [if_pos hc, toNat_ofNat_valid _ (by omega),
      isAsciiSpaceN_false_of_ge _ (by omega), isAsciiSpaceN_false_of_ge _ (by omega)]
  · rw [if_neg hc]

theorem fromhex_cons_space (c : Char) (cs : List Char) (h : isAsciiSpace c = true) :
    fromhex (c :: cs) = fromhex cs := by
  rw [fromhex.eq_def]
  simp [h]

theorem fromhex_single (c : Char) (h : isAsciiSpace c = false) :
    fromhex [c] = none := by
  rw [fromhex.eq_def]
  simp [h]

theorem fromhex_cons_cons (c d : Char) (cs : List Char) (h : isAsciiSpace c = false) :
    fromhex (c :: d :: cs) =
      match hexVal c, hexVal d, fromhex cs with
      | some t, some b, some r =>
        some (⟨16 * t.val + b.val, by
          have ht := t.isLt; have hb := b.isLt; omega⟩ :: r)
      | _, _, _ => none := by
  cases hc : hexVal c <;> cases hd : hexVal d <;> cases hf : fromhex cs <;>
    (rw [fromhex.eq_def]; simp [h, hc, hd, hf])

theorem pyHexShape_cons_space (c : Char) (cs : List Char) (h : isAsciiSpace c = true) :
    pyHexShape (c :: cs) = pyHexShape cs := by
  rw [pyHexShape.eq_def]
  simp [h]

theorem pyHexShape_single (c : Char) (h : isAsciiSpace c = false) :
    pyHexShape [c] = false := by
  rw [pyHexShape.eq_def]
  simp [h]

theorem pyHexShape_cons_cons (c d : Char) (cs : List Char) (h : isAsciiSpace c = false) :
    pyHexShape (c :: d :: cs) = ((hexVal c).isSome && (hexVal d).isSome && pyHexShape cs) := by
  rw [pyHexShape.eq_def]
  simp [h]


theorem fromhex_congr (f : Char → Char)
    (hs : ∀ c, isAsciiSpace (f c) = isAsciiSpace c)
    (hv : ∀ c, hexVal (f c) = hexVal c) :
    ∀ l : List Char, fromhex (l.map f) = fromhex l := by
  intro l
  induction l using pyHexShape.induct with
  | case1 => rfl
  | case2 c cs h ih =>
    rw [List.map_cons, fromhex_cons_space _ _ (by rw [hs c]; exact h),
      fromhex_cons_space _ _ h, ih]
  | case3 c h =>
    rw [List.map_cons, List.map_nil, fromhex_single _ (by rw [hs c]; simpa using h),
      fromhex_single _ (by simpa using h)]
  | case4 c h d cs ih =>
    rw [List.map_cons, List.map_cons,
      fromhex_cons_cons _ _ _ (by rw [hs c]; simpa using h),
      fromhex_cons_cons _ _ _ (by simpa using h), hv c, hv d, ih]

theorem fromhex_isSome (l : List Char) : (fromhex l).isSome = pyHexShape l := by
  induction l using pyHexShape.induct with
  | case1 => rfl
  | case2 c cs h ih =>
    rw [fromhex_cons_space _ _ h, pyHexShape_cons_space _ _ h, ih]
  | case3 c h =>
    rw [fromhex_single _ (by simpa using h), pyHexShape_single _ (by simpa using h)]
    rfl
  | case4 c h d cs ih =>
    rw [fromhex_cons_cons _ _ _ (by simpa using h),
      pyHexShape_cons_cons _ _ _ (by simpa using h), ← ih]
    cases hexVal c <;> cases hexVal d <;> cases fromhex cs <;> rfl

theorem pyHexShape_nospace (l : List Char) (hl : ∀ c ∈ l, isAsciiSpace c = false) :
    pyHexShape l = true ↔
      (l.length % 2 = 0 ∧ ∀ c ∈ l, (hexVal c).isSome = true) := by
  induction l using pyHexShape.induct with
  | case1 => simp [pyHexShape]
  | case2 c cs h ih =>
    exact absurd (hl c (by simp)) (by simp [h])
  | case3 c h =>
    rw [pyHexShape_single _ (by simpa using h)]
    simp
  | case4 c h d cs ih =>
    have hd : isAsciiSpace d = false := hl d (by simp)
    have hcs : ∀ x ∈ cs, isAsciiSpace x = false := fun x hx => hl x (by simp [hx])
    rw [pyHexShape_cons_cons _ _ _ (by simpa using h)]
    simp only [Bool.and_eq_true, ih hcs, List.length_cons, List.mem_cons]
    constructor
    · rintro ⟨⟨hc1, hd1⟩, heven, hall⟩
      refine ⟨by omega, ?_⟩
      rintro x (rfl | rfl | hx)
      · exact hc1
      · exact hd1
      · exact hall x hx
    · rintro ⟨heven, hall⟩
      exact ⟨⟨hall c (by simp), hall d (by simp)⟩, by omega,
        fun x hx => hall x (by simp [hx])⟩

theorem hexVal_hexDigitChar : ∀ n : Fin 16, hexVal (hexDigitChar n) = some n := by
  decide

theorem isAsciiSpace_hexDigitChar : ∀ n : Fin 16, isAsciiSpace (hexDigitChar n) = false := by
  decide

theorem isLowerHexDigit_hexDigitChar : ∀ n : Fin 16, isLowerHexDigit (hexDigitChar n) = true := by
  decide

theorem fromhex_hexdata (B : List (Fin 256)) : fromhex (hexdata B) = some B := by
  induction B with
  | nil => rfl
  | cons b B ih =>
    have hb := b.isLt
    show fromhex (hexDigitChar _ :: hexDigitChar _ :: hexdata B) = some (b :: B)
    rw [fromhex_cons_cons _ _ _ (isAsciiSpace_hexDigitChar _),
      hexVal_hexDigitChar, hexVal_hexDigitChar, ih]
    refine congrArg some (congrArg (fun x => x :: B) (Fin.ext ?_))
    show 16 * (b.val / 16) + b.val % 16 = b.val
    omega

theorem hexdata_length (B : List (Fin 256)) : (hexdata B).length = 2 * B.length := by
  induction B with
  | nil => rfl
  | cons b B ih =>
    show (format02x b ++ hexdata B).length = 2 * (B.length + 1)
    rw [List.length_append, ih]
    simp [format02x]
    omega

theorem hexdata_all_lower (B : List (Fin 256)) :
    (hexdata B).all isLowerHexDigit = true := by
  induction B with
  | nil => rfl
  | cons b B ih =>
    show (format02x b ++ hexdata B).all isLowerHexDigit = true
    rw [List.all_append, ih]
    simp [format02x, isLowerHexDigit_hexDigitChar]

theorem matchesHexPairs_hexdata (B : List (Fin 256)) :
    matchesHexPairs (hexdata B) = true := by
  unfold matchesHexPairs
  rw [hexdata_length, hexdata_all_lower]
  simp only [Bool.and_true, decide_eq_true_eq]
  omega

theorem fromhex_hexdata_toUpper (B : List (Fin 256)) :
    fromhex ((hexdata B).map Char.toUpper) = some B := by
  rw [fromhex_congr Char.toUpper isAsciiSpace_toUpper hexVal_toUpper]
  exact fromhex_hexdata B

theorem sendEvents_cons_ok (line : List Char) (rest : List (List Char))
    (B : List (Fin 256)) (h : fromhex (pyRstrip line) = some B) :
    sendEvents (line :: rest) =
      Event.send_data B :: Event.out sentMsg :: sendEvents rest := by
  simp [sendEvents, h]

theorem sendEvents_cons_fail (line : List Char) (rest : List (List Char))
    (h : fromhex (pyRstrip line) = none) :
    sendEvents (line :: rest) = [] := by
  simp [sendEvents, h]

theorem sendExit_cons_ok (line : List Char) (rest : List (List Char))
    (B : List (Fin 256)) (h : fromhex (pyRstrip line) = some B) :
    sendExit (line :: rest) = sendExit rest := by
  simp [sendExit, h]

theorem sendExit_cons_fail (line : List Char) (rest : List (List Char))
    (h : fromhex (pyRstrip line) = none) :
    sendExit (line :: rest) = SendOutcome.decode_error := by
  simp [sendExit, h]

theorem outLines_captureSteps (script : List PollResult) :
    outLines (captureSteps script) = (capturedCodes script).map hexdata := by
  induction script with
  | nil => rfl
  | cons p rest ih =>
    cases p with
    | storage_empty => simpa [captureSteps, capturedCodes, outLines] using ih
    | data b => simpa [captureSteps, capturedCodes, outLines] using ih
    | fatal => rfl

theorem outLines_captureRun (script : List PollResult) :
    outLines (captureRun script) = (capturedCodes script).map hexdata := by
  simpa [captureRun, outLines] using outLines_captureSteps script

theorem flushAfterOut_captureSteps (script : List PollResult) :
    flushAfterOut (captureSteps script) = true := by
  induction script with
  | nil => rfl
  | cons p rest ih =>
    cases p with
    | storage_empty => exact ih
    | data b => exact ih
    | fatal => rfl

theorem flushAfterOut_captureRun (script : List PollResult) :
    flushAfterOut (captureRun script) = true :=
  flushAfterOut_captureSteps script

theorem mem_capturedCodes (b : List (Fin 256)) (script : List PollResult)
    (h : b ∈ capturedCodes script) : PollResult.data b ∈ script := by
  induction script with
  | nil => simp [capturedCodes] at h
  | cons p rest ih =>
    cases p with
    | storage_empty =>
      simp only [capturedCodes] at h
      exact List.mem_cons_of_mem _ (ih h)
    | data c =>
      simp only [capturedCodes, List.mem_cons] at h
      rcases h with rfl | h
      · exact List.mem_cons_self _ _
      · exact List.mem_cons_of_mem _ (ih h)
    | fatal => simp [capturedCodes] at h

/-- C1: decoding the hex rendering of any byte sequence yields it back;
decoding is insensitive to letter case of its input; encoding emits only
lowercase hex digits. -/
theorem claim_C1_roundtrip :
    (∀ B : List (Fin 256), fromhex (hexdata B) = some B)
    ∧ (∀ l : List Char, fromhex (l.map Char.toUpper) = fromhex l)
    ∧ (∀ l : List Char, fromhex (l.map Char.toLower) = fromhex l)
    ∧ (∀ B : List (Fin 256), (hexdata B).all isLowerHexDigit = true) :=
  ⟨fromhex_hexdata,
   fromhex_congr Char.toUpper isAsciiSpace_toUpper hexVal_toUpper,
   fromhex_congr Char.toLower isAsciiSpace_toLower hexVal_toLower,
   hexdata_all_lower⟩

/-- C2 counterexample: the stripped line `1a 2b` has odd length and
contains a non-hex character, yet the decode step succeeds and the
line is sent. -/
theorem claim_C2_counterexample :
    (pyRstrip "1a 2b\n".data).length % 2 = 1
    ∧ (∃ c ∈ pyRstrip "1a 2b\n".data, hexVal c = none)
    ∧ fromhex (pyRstrip "1a 2b\n".data) = some [26, 43]
    ∧ sendEvents ["1a 2b\n".data] = [Event.send_data [26, 43], Event.out sentMsg]
    ∧ sendExit ["1a 2b\n".data] = SendOutcome.exit0 := by
  decide

/-- C2 amended: the decode step fails exactly when the stripped text is
not a sequence of two-hex-digit pairs with ASCII whitespace allowed
around and between (but not inside) pairs; for whitespace-free text
this is exactly odd length or a non-hex character; on failure nothing
is sent and the run aborts. -/
theorem claim_C2_decode_failure (line : List Char) (rest : List (List Char)) :
    ((fromhex (pyRstrip line) = none) ↔ pyHexShape (pyRstrip line) = false)
    ∧ ((∀ c ∈ pyRstrip line, isAsciiSpace c = false) →
        ((fromhex (pyRstrip line) = none) ↔
          ((pyRstrip line).length % 2 = 1 ∨ ∃ c ∈ pyRstrip line, hexVal c = none)))
    ∧ (fromhex (pyRstrip line) = none →
        sendEvents (line :: rest) = []
        ∧ sendExit (line :: rest) = SendOutcome.decode_error) := by
  have h1 : (fromhex (pyRstrip line) = none) ↔
      (fromhex (pyRstrip line)).isSome = false := by
    cases fromhex (pyRstrip line) <;> simp
  refine ⟨by rw [h1, fromhex_isSome], ?_, ?_⟩
  · intro hns
    have h2 := pyHexShape_nospace (pyRstrip line) hns
    constructor
    · intro h
      have hp : pyHexShape (pyRstrip line) = false := by
        rw [← fromhex_isSome, h]; rfl
      by_contra hcon
      push_neg at hcon
      obtain ⟨hodd, hall⟩ := hcon
      have hp2 : pyHexShape (pyRstrip line) = true := h2.mpr ⟨by omega,
        fun c hc => by
          cases hv : hexVal c
          · exact absurd hv (hall c hc)
          · rfl⟩
      rw [hp2] at hp
      exact Bool.true_eq_false.mp hp
    · intro h
      cases hF : fromhex (pyRstrip line) with
      | none => rfl
      | some r =>
        exfalso
        have hp : pyHexShape (pyRstrip line) = true := by
          rw [← fromhex_isSome, hF]; rfl
        obtain ⟨heven, hall⟩ := h2.mp hp
        rcases h with hodd | ⟨c, hc, hnone⟩
        · omega
        · have := hall c hc
          rw [hnone] at this
          exact Bool.false_eq_true.mp this
  · intro h
    exact ⟨sendEvents_cons_fail _ _ h, sendExit_cons_fail _ _ h⟩

/-- C2 witness: concrete failing line `gg` — decode fails, nothing is
sent, the run aborts with a decode error. -/
theorem claim_C2_witness :
    ((fromhex (pyRstrip "gg\n".data) = none) ↔
      pyHexShape (pyRstrip "gg\n".data) = false)
    ∧ (sendEvents ["gg\n".data] = []
      ∧ sendExit ["gg\n".data] = SendOutcome.decode_error) :=
  ⟨(claim_C2_decode_failure "gg\n".data []).1,
   (claim_C2_decode_failure "gg\n".data []).2.2 (by decide)⟩

/-- C3: with the device reporting "storage empty" twice and then
returning bytes 0x1a 0x2b, the capture run arms learning mode, polls
three times with a half-second sleep after each of the two empty
polls, prints exactly the line `1a2b`, flushes, and re-arms learning
mode exactly once; no crash occurs. -/
theorem claim_C3_capture_trace :
    captureRun [PollResult.storage_empty, PollResult.storage_empty,
        PollResult.data [26, 43]] =
      [Event.enter_learning, Event.check_data, Event.sleep_half,
       Event.check_data, Event.sleep_half, Event.check_data,
       Event.out "1a2b".data, Event.flush, Event.enter_learning]
    ∧ outLines (captureRun [PollResult.storage_empty, PollResult.storage_empty,
        PollResult.data [26, 43]]) = ["1a2b".data]
    ∧ (captureRun [PollResult.storage_empty, PollResult.storage_empty,
        PollResult.data [26, 43]]).count Event.sleep_half = 2
    ∧ (captureRun [PollResult.storage_empty, PollResult.storage_empty,
        PollResult.data [26, 43]]).count Event.enter_learning = 2
    ∧ captureCrashes [PollResult.storage_empty, PollResult.storage_empty,
        PollResult.data [26, 43]] = false := by
  decide

/-- C4: the send loop is strictly sequential and line-ordered (each
successfully decoded line contributes its send and its confirmation
before any later line is processed), and on input lines `1a2b` and
`FF00` it invokes send exactly twice with bytes 0x1a 0x2b then 0xff
0x00, prints two `Sent` lines, and ends normally. -/
theorem claim_C4_send_trace :
    (sendEvents ["1a2b\n".data, "FF00\n".data] =
        [Event.send_data [26, 43], Event.out sentMsg,
         Event.send_data [255, 0], Event.out sentMsg]
      ∧ sendExit ["1a2b\n".data, "FF00\n".data] = SendOutcome.exit0
      ∧ outLines (sendEvents ["1a2b\n".data, "FF00\n".data]) = [sentMsg, sentMsg])
    ∧ (∀ (line : List Char) (rest : List (List Char)) (B : List (Fin 256)),
        fromhex (pyRstrip line) = some B →
          sendEvents (line :: rest) =
            Event.send_data B :: Event.out sentMsg :: sendEvents rest
          ∧ sendExit (line :: rest) = sendExit rest) := by
  refine ⟨⟨by decide, by decide, by decide⟩, ?_⟩
  intro line rest B h
  exact ⟨sendEvents_cons_ok _ _ _ h, sendExit_cons_ok _ _ _ h⟩

/-- C4 witness: the sequencing part applied to the concrete line
`1a2b`. -/
theorem claim_C4_witness :
    sendEvents ["1a2b\n".data] =
      [Event.send_data [26, 43], Event.out sentMsg]
    ∧ sendExit ["1a2b\n".data] = sendExit [] :=
  claim_C4_send_trace.2 "1a2b\n".data [] [26, 43] (by decide)

/-- C5: on the single input line `1a2` (odd length after stripping)
the decode fails, the run aborts with a fatal decode error, and send
is never invoked. -/
theorem claim_C5_odd_length :
    fromhex (pyRstrip "1a2\n".data) = none
    ∧ sendEvents ["1a2\n".data] = []
    ∧ sendExit ["1a2\n".data] = SendOutcome.decode_error := by
  decide

/-- C6: only the transient "storage empty" poll is recovered locally
(sleep and poll again, consuming the rest of the script); a fatal poll
error terminates the run immediately — the trace ends at that poll and
no further poll occurs. -/
theorem claim_C6_error_policy (rest : List PollResult) :
    (captureRun (PollResult.fatal :: rest) =
        [Event.enter_learning, Event.check_data]
      ∧ captureCrashes (PollResult.fatal :: rest) = true)
    ∧ (captureSteps (PollResult.storage_empty :: rest) =
        Event.check_data :: Event.sleep_half :: captureSteps rest
      ∧ captureCrashes (PollResult.storage_empty :: rest) = captureCrashes rest) :=
  ⟨⟨rfl, rfl⟩, ⟨rfl, rfl⟩⟩

/-- C7: the capture-side hex encoding matches the even-length
lowercase-hex format and its length is exactly twice the byte
count. -/
theorem claim_C7_encoder_format (B : List (Fin 256)) :
    matchesHexPairs (hexdata B) = true ∧ (hexdata B).length = 2 * B.length :=
  ⟨matchesHexPairs_hexdata B, hexdata_length B⟩

/-- C8 counterexample: if the device returns an empty byte string, the
capture loop prints an empty line, which does not match the non-empty
format `[0-9a-f]+`. -/
theorem claim_C8_counterexample :
    Event.out [] ∈ captureRun [PollResult.data []]
    ∧ matchesLowerHexPlus [] = false := by
  decide

/-- C8 amended: every line the capture loop writes is the hex
rendering of one captured code and matches the (possibly empty)
even-length lowercase-hex format, and each written line is immediately
followed by a flush. -/
theorem claim_C8_output_lines (script : List PollResult) :
    outLines (captureRun script) = (capturedCodes script).map hexdata
    ∧ (∀ s ∈ outLines (captureRun script),
        (∃ b, PollResult.data b ∈ script ∧ s = hexdata b)
        ∧ matchesHexPairs s = true)
    ∧ flushAfterOut (captureRun script) = true := by
  refine ⟨outLines_captureRun script, ?_, flushAfterOut_captureRun script⟩
  intro s hs
  rw [outLines_captureRun script] at hs
  obtain ⟨b, hb, rfl⟩ := List.mem_map.mp hs
  exact ⟨⟨b, mem_capturedCodes b script hb, rfl⟩, matchesHexPairs_hexdata b⟩

/-- C8 witness: the amended statement applied to a device returning
bytes 0x1a 0x2b. -/
theorem claim_C8_witness :
    outLines (captureRun [PollResult.data [26, 43]]) = [hexdata [26, 43]]
    ∧ ((∃ b, PollResult.data b ∈ [PollResult.data [26, 43]]
          ∧ hexdata [26, 43] = hexdata b)
        ∧ matchesHexPairs (hexdata [26, 43]) = true)
    ∧ flushAfterOut (captureRun [PollResult.data [26, 43]]) = true :=
  ⟨(claim_C8_output_lines [PollResult.data [26, 43]]).1,
   (claim_C8_output_lines [PollResult.data [26, 43]]).2.1 (hexdata [26, 43])
     (by decide),
   (claim_C8_output_lines [PollResult.data [26, 43]]).2.2⟩

/-- C9: an input line that is empty after stripping trailing
whitespace decodes to the empty byte sequence: send is invoked with no
bytes, a `Sent` confirmation is still printed, and processing
continues. -/
theorem claim_C9_empty_line (line : List Char) (rest : List (List Char))
    (h : pyRstrip line = []) :
    sendEvents (line :: rest) =
      Event.send_data [] :: Event.out sentMsg :: sendEvents rest
    ∧ sendExit (line :: rest) = sendExit rest := by
  have hf : fromhex (pyRstrip line) = some [] := by rw [h]; rfl
  exact ⟨sendEvents_cons_ok _ _ _ hf, sendExit_cons_ok _ _ _ hf⟩

/-- C9 witness: the bare-newline line. -/
theorem claim_C9_witness :
    pyRstrip ['\n'] = []
    ∧ (sendEvents [['\n']] =
        Event.send_data [] :: Event.out sentMsg :: sendEvents []
      ∧ sendExit [['\n']] = sendExit []) :=
  ⟨by decide, claim_C9_empty_line ['\n'] [] (by decide)⟩

/-- C10: the capture-side hex encoding is a monoid homomorphism from
byte sequences to strings under concatenation. -/
theorem claim_C10_hexdata_hom (A B : List (Fin 256)) :
    hexdata (A ++ B) = hexdata A ++ hexdata B ∧ hexdata ([] : List (Fin 256)) = [] := by
  constructor
  · simp [hexdata]
  · rfl

end Heatpump
